import Mathlib

/-!
# TaskFlow: a shallow embedding of the task-list application

This file embeds the JavaScript task-list application (`storage.js`,
`theme.js` and the `TaskManager` script) in Lean 4 and proves or refutes
the specification claims about it.

Modelling conventions:

* `localStorage` is a record with one field per key the program uses
  (`taskflow_tasks`, `taskflow_preferences`); `getItem` returning `null`
  is the `none` case.
* A stored string is modelled by `StoredVal α`: either the JSON
  serialization of a value `v : α` (`wellFormed v`) or a non-empty string
  on which `JSON.parse` throws a `SyntaxError` (`malformed`).
* `JSON.parse` is `parseJSON`, returning `Except JsError α`; an
  uncaught JavaScript exception is the `Except.error` result.
* `localStorage.setItem` is modelled as always succeeding (a quota
  failure is environmental, not program behaviour), so the
  `try { setItem ... } catch` bodies of `saveTasks` / `savePreferences`
  always take the `return true` path.
* A JavaScript `Date` object is `JsDate`, carrying its epoch-millisecond
  timestamp.  `JSON.stringify` serializes a `Date` through
  `Date.prototype.toJSON`, i.e. as the string `toISOString()`; `JSON.parse`
  never produces a `Date` back.  `JsDate.toISOString` models the host
  ISO rendering abstractly as an injective encoding of the timestamp
  (its exact text is immaterial to every claim).
* Methods that mutate the store are state-passing: they take the current
  `LocalStorage` and return the new one together with their JS return value.
-/

namespace TaskFlow

/-- JavaScript exception raised by `JSON.parse` on a malformed string. -/
inductive JsError where
  | parseFailed
deriving DecidableEq, Repr

/-- A string stored under a `localStorage` key: either the JSON
serialization of a value `v : α`, or a (non-empty) string on which
`JSON.parse` throws. -/
inductive StoredVal (α : Type) where
  | wellFormed (v : α)
  | malformed
deriving DecidableEq, Repr

/-- Model of `JSON.parse`: succeeds exactly on well-formed serializations. -/
def parseJSON {α : Type} : StoredVal α → Except JsError α
  | .wellFormed v => .ok v
  | .malformed => .error .parseFailed

/-- A JavaScript `Date` object, identified by its epoch-millisecond
timestamp. -/
structure JsDate where
  time : Nat
deriving DecidableEq, Repr

/-- Model of `Date.prototype.toISOString` (hence of `Date.prototype.toJSON`,
used by `JSON.stringify`): an injective string rendering of the timestamp.
The concrete format is irrelevant to the claims; only the facts that it is a
plain string and determined by the timestamp matter. -/
def JsDate.toISOString (d : JsDate) : String :=
  Nat.repr d.time

/-- The `createdAt` field of an in-memory task: `createTask` puts a `Date`
object there (`createdAt: new Date()`), while a task reloaded from storage
carries the plain string `JSON.parse` produced. -/
inductive CreatedAt where
  | date (d : JsDate)
  | str (s : String)
deriving DecidableEq, Repr

/-- An in-memory task object, as built by `TaskManager.createTask`. -/
structure Task where
  id : String
  title : String
  description : String
  completed : Bool
  createdAt : CreatedAt
deriving DecidableEq, Repr

/-- A task as it appears inside the JSON text under `taskflow_tasks`:
`JSON.stringify` has turned a `Date` valued `createdAt` into its ISO
string. -/
structure StoredTask where
  id : String
  title : String
  description : String
  completed : Bool
  createdAt : String
deriving DecidableEq, Repr

/-- How `JSON.stringify` renders the `createdAt` field: a `Date` goes
through `toJSON`/`toISOString`; a string is kept as is. -/
def serializeCreatedAt : CreatedAt → String
  | .date d => d.toISOString
  | .str s => s

/-- The effect of `JSON.stringify` on one task object. -/
def serializeTask (t : Task) : StoredTask :=
  { id := t.id, title := t.title, description := t.description,
    completed := t.completed, createdAt := serializeCreatedAt t.createdAt }

/-- The effect of `JSON.parse` on one serialized task: every field comes
back as written, `createdAt` as a plain string. -/
def deserializeTask (t : StoredTask) : Task :=
  { id := t.id, title := t.title, description := t.description,
    completed := t.completed, createdAt := .str t.createdAt }

/-- User preferences record (`taskflow_preferences`). -/
structure Preferences where
  darkMode : Bool
  accentColor : String
  hideCompleted : Bool
deriving DecidableEq, Repr

/-- The browser local store, one field per key the program uses.
`none` models `getItem` returning `null`. -/
structure LocalStorage where
  taskflow_tasks : Option (StoredVal (List StoredTask))
  taskflow_preferences : Option (StoredVal Preferences)
deriving DecidableEq, Repr

/-- A store with neither key present. -/
def emptyStorage : LocalStorage :=
  { taskflow_tasks := none, taskflow_preferences := none }

namespace TaskStorage

/-- Embedding of `TaskStorage.getTasks`:

    getTasks() {
      const tasksJSON = localStorage.getItem(this.storageKey);
      return tasksJSON ? JSON.parse(tasksJSON) : [];
    }

There is no `try`/`catch` here, so a `JSON.parse` failure propagates to the
caller (`Except.error`).  (`StoredVal.malformed` stands for a non-empty
unparsable string; the empty string is falsy and would take the `[]` branch,
but the empty string is not a `JSON.stringify` output for these keys.) -/
def getTasks (ls : LocalStorage) : Except JsError (List Task) :=
  match ls.taskflow_tasks with
  | none => .ok []
  | some stored => (parseJSON stored).map (List.map deserializeTask)

/-- Embedding of `TaskStorage.saveTasks`: serializes the full list and
overwrites the `taskflow_tasks` key; returns `true` (the `catch` branch
returning `false` is unreachable under the always-succeeding `setItem`
model). -/
def saveTasks (ls : LocalStorage) (tasks : List Task) : Bool × LocalStorage :=
  (true, { ls with taskflow_tasks := some (.wellFormed (tasks.map serializeTask)) })

/-- The hardcoded default preferences of `getPreferences`. -/
def defaultPreferences : Preferences :=
  { darkMode := true, accentColor := "lilac", hideCompleted := false }

/-- Embedding of `TaskStorage.getPreferences`: missing key yields defaults
via the ternary; a parse failure is caught and yields the same defaults. -/
def getPreferences (ls : LocalStorage) : Preferences :=
  match ls.taskflow_preferences with
  | none => defaultPreferences
  | some stored =>
    match parseJSON stored with
    | .ok p => p
    | .error _ => defaultPreferences

/-- Embedding of `TaskStorage.savePreferences`: overwrites the
`taskflow_preferences` key, returns `true`. -/
def savePreferences (ls : LocalStorage) (p : Preferences) : Bool × LocalStorage :=
  (true, { ls with taskflow_preferences := some (.wellFormed p) })

/-- A dynamic-key assignment `preferences[key] = value`, specialised to the
three keys the program writes (`darkMode` and `hideCompleted` with booleans,
`accentColor` with a colour name). -/
inductive PrefUpdate where
  | darkMode (b : Bool)
  | accentColor (c : String)
  | hideCompleted (b : Bool)
deriving DecidableEq, Repr

/-- Effect of `preferences[key] = value` on the record. -/
def setPref (p : Preferences) : PrefUpdate → Preferences
  | .darkMode b => { p with darkMode := b }
  | .accentColor c => { p with accentColor := c }
  | .hideCompleted b => { p with hideCompleted := b }

/-- Embedding of `TaskStorage.updatePreference`: read-modify-write through
`getPreferences` and `savePreferences`. -/
def updatePreference (ls : LocalStorage) (u : PrefUpdate) : Bool × LocalStorage :=
  let preferences := getPreferences ls
  savePreferences ls (setPref preferences u)

end TaskStorage

/-!
## TaskManager

The `TaskManager` class owns the in-memory task list and the relevant DOM
state.  The DOM pieces a claim can observe are modelled as fields:

* `rendered` — the tasks currently displayed as `.task-item` elements in
  `#task-list` (what `document.querySelector` with a `data-id` selector can
  find), in display order;
* `hideCompletedChecked` — the checked state of the `#hide-completed`
  checkbox;
* `notification` — the text of the notification banner while it is shown
  (`none` when hidden).

Timer callbacks (`setTimeout`) are fire-and-forget and always eventually
run; the embedding of an operation therefore includes the effect of the timers
it schedules, so `deleteTask` and `toggleTaskCompletion` denote the state
after their deferred mutation/re-render has fired.  Nothing in the
operations below can throw, so they are total functions on states.
-/

/-- Model of JavaScript `String.prototype.trim`: strip leading and trailing
whitespace.  (Defined by structural recursion over the character list so
that proofs can evaluate it on literals; the library `String.trim` goes
through `Substring` byte positions by well-founded recursion, which the
kernel cannot reduce.) -/
def jsTrim (s : String) : String :=
  ⟨((s.data.dropWhile Char.isWhitespace).reverse.dropWhile Char.isWhitespace).reverse⟩

/-- State of a `TaskManager` instance together with the DOM it owns and
the shared `localStorage`. -/
structure TaskManager where
  tasks : List Task
  currentFilter : String
  hideCompletedChecked : Bool
  rendered : List Task
  notification : Option String
  store : LocalStorage
deriving DecidableEq, Repr

namespace TaskManager

/-- Embedding of `TaskManager.filterTasks`: a `switch` on
`this.currentFilter`, whose `default` branch (the `"all"` filter, and any
other string) consults the hide-completed checkbox. -/
def filterTasks (tm : TaskManager) : List Task :=
  match tm.currentFilter with
  | "active" => tm.tasks.filter (fun task => !task.completed)
  | "completed" => tm.tasks.filter (fun task => task.completed)
  | _ =>
    if tm.hideCompletedChecked then
      tm.tasks.filter (fun task => !task.completed)
    else
      tm.tasks

/-- Embedding of `TaskManager.renderTasks`: clears `#task-list` and rebuilds
it from the filtered view (the empty-state indicator is display only and
not tracked). -/
def renderTasks (tm : TaskManager) : TaskManager :=
  { tm with rendered := tm.filterTasks }

/-- Embedding of `TaskManager.showNotification`: sets the banner text and
shows it (the 3000 ms auto-hide timer only hides the banner again and is
not tracked beyond that). -/
def showNotification (tm : TaskManager) (message : String) : TaskManager :=
  { tm with notification := some message }

/-- Embedding of `TaskManager.saveTasks`: writes the list of the manager through
the shared `taskStorage` instance, ignoring the returned success flag. -/
def saveTasks (tm : TaskManager) : TaskManager :=
  { tm with store := (TaskStorage.saveTasks tm.store tm.tasks).2 }

/-- Embedding of `TaskManager.createTask`.  `now` is the value of
`Date.now()` at the call, so the fresh id is `now.toString()` and
`createdAt` is a `Date` object for that instant. -/
def createTask (tm : TaskManager) (title description : String) (now : Nat) :
    TaskManager :=
  let newTask : Task :=
    { id := Nat.repr now
      title := jsTrim title
      description := jsTrim description
      completed := false
      createdAt := .date ⟨now⟩ }
  let tm := { tm with tasks := newTask :: tm.tasks }
  let tm := tm.saveTasks
  let tm := tm.renderTasks
  tm.showNotification "Task added successfully!"

/-- Effect of `this.tasks[taskIndex].completed = !this.tasks[taskIndex].completed`
where `taskIndex` is the first index whose task has the given id
(`findIndex`): flip `completed` on the first match, keep the rest. -/
def toggleFirst (taskId : String) : List Task → List Task
  | [] => []
  | task :: rest =>
    if task.id = taskId then
      { task with completed := !task.completed } :: rest
    else
      task :: toggleFirst taskId rest

/-- Embedding of `TaskManager.toggleTaskCompletion`: no-op when `findIndex`
returns `-1`; otherwise flip the first matching task, persist, schedule a
re-render after 500 ms (included here as the eventual effect of the timer) and
show a status notification. -/
def toggleTaskCompletion (tm : TaskManager) (taskId : String) : TaskManager :=
  if tm.tasks.any (fun task => task.id = taskId) then
    let tasks := toggleFirst taskId tm.tasks
    let tm := { tm with tasks := tasks }
    let tm := tm.saveTasks
    let status :=
      if ((tasks.find? (fun task => task.id = taskId)).map Task.completed).getD false
      then "completed" else "active"
    let tm := tm.showNotification ("Task marked as " ++ status ++ "!")
    tm.renderTasks
  else
    tm

/-- Embedding of `TaskManager.deleteTask`: `document.querySelector` looks for
a rendered `.task-item` with the given `data-id`.  When none exists the whole
body is skipped.  When one exists, the notification is shown immediately and
the 300 ms timer (included here as its eventual effect) removes the id from
the list, persists and re-renders. -/
def deleteTask (tm : TaskManager) (taskId : String) : TaskManager :=
  if tm.rendered.any (fun task => task.id = taskId) then
    let tm := tm.showNotification "Task deleted!"
    let tasks := tm.tasks.filter (fun task => task.id ≠ taskId)
    let tm := { tm with tasks := tasks }
    let tm := tm.saveTasks
    tm.renderTasks
  else
    tm

/-- Embedding of the `TaskManager` constructor run against a given store:
state starts as `tasks = []`, `currentFilter = "all"`, then `loadTasks`
(which can surface an uncaught `JSON.parse` exception), `loadPreferences`
(checkbox mirrors `hideCompleted`; if set, the filter becomes `"active"`)
and `renderTasks`.  The DOM starts with an empty list and a hidden
notification banner. -/
def init (ls : LocalStorage) : Except JsError TaskManager := do
  let tasks ← TaskStorage.getTasks ls
  let preferences := TaskStorage.getPreferences ls
  let tm : TaskManager :=
    { tasks := tasks
      currentFilter := if preferences.hideCompleted then "active" else "all"
      hideCompletedChecked := preferences.hideCompleted
      rendered := []
      notification := none
      store := ls }
  return tm.renderTasks

/-- The manager obtained by loading the application against an empty store:
no tasks, default preferences, `"all"` filter. -/
def fresh : TaskManager :=
  { tasks := []
    currentFilter := "all"
    hideCompletedChecked := false
    rendered := []
    notification := none
    store := emptyStorage }

/-- One user-driven mutating operation on the task list. -/
inductive Op where
  | create (title description : String) (now : Nat)
  | toggle (id : String)
  | delete (id : String)
deriving DecidableEq, Repr

/-- Apply one operation. -/
def applyOp (tm : TaskManager) : Op → TaskManager
  | .create title description now => tm.createTask title description now
  | .toggle id => tm.toggleTaskCompletion id
  | .delete id => tm.deleteTask id

/-- Apply a sequence of operations, oldest first. -/
def applyOps (tm : TaskManager) (ops : List Op) : TaskManager :=
  ops.foldl applyOp tm

/-- The `Date.now()` values observed by the `create` operations of a
sequence. -/
def createTimes (ops : List Op) : List Nat :=
  ops.filterMap fun
    | .create _ _ now => some now
    | _ => none

end TaskManager

/-!
## HTML escaping and task markup

`TaskManager.escapeHtml` escapes text by assigning it to `div.textContent`
and reading back `div.innerHTML`.  The HTML fragment serialization of a text
node replaces `&` by `&amp;`, `<` by `&lt;` and `>` by `&gt;` and leaves
every other character unchanged; `escapeChar`/`escapeHtml` below are that
algorithm.  `unescapeHtml` is the inverse direction in the browser — how a parser
turns character references in element content back into text — and is used
to state that escaped text renders as the original literal text. -/

/-- Serialization of one character of a DOM text node as HTML. -/
def escapeChar (c : Char) : List Char :=
  if c = '&' then ['&', 'a', 'm', 'p', ';']
  else if c = '<' then ['&', 'l', 't', ';']
  else if c = '>' then ['&', 'g', 't', ';']
  else [c]

/-- Embedding of `TaskManager.escapeHtml`: serialize every character of the
text-node content. -/
def escapeHtml (s : String) : String :=
  ⟨(s.data.map escapeChar).flatten⟩

/-- Decoding of the character references `&amp;`, `&lt;`, `&gt;` in element
content (the inverse direction performed by an HTML parser on text). -/
def unescapeList : List Char → List Char
  | '&' :: 'a' :: 'm' :: 'p' :: ';' :: more => '&' :: unescapeList more
  | '&' :: 'l' :: 't' :: ';' :: more => '<' :: unescapeList more
  | '&' :: 'g' :: 't' :: ';' :: more => '>' :: unescapeList more
  | c :: rest => c :: unescapeList rest
  | [] => []

/-- String version of `unescapeList`. -/
def unescapeHtml (s : String) : String :=
  ⟨unescapeList s.data⟩

/-- A string free of the tag delimiters `<` and `>`: inserted into element
content, it can never open or close a tag, so it is parsed as text. -/
def TagFree (s : String) : Prop :=
  ∀ c ∈ s.data, c ≠ '<' ∧ c ≠ '>'

instance (s : String) : Decidable (TagFree s) := by
  unfold TagFree; infer_instance

/-- Embedding of the `innerHTML` template literal of
`TaskManager.createTaskElement`: the only task-dependent text inserted into
the markup is the checked marker of the completed ternary, the escaped title and —
when the description is truthy (non-empty) — the escaped description. -/
def createTaskElementHTML (task : Task) : String :=
  "\n      <label class=\"task-checkbox\">\n        <input type=\"checkbox\" "
    ++ (if task.completed then "checked" else "")
    ++ ">\n        <span class=\"custom-checkbox\">\n          <i class=\"fas fa-check\"></i>\n        </span>\n      </label>\n      <div class=\"task-content\">\n        <div class=\"task-header\">\n          <h3 class=\"task-title\">"
    ++ escapeHtml task.title
    ++ "</h3>\n          <div class=\"task-actions\">\n            <button class=\"delete-btn\" aria-label=\"Delete task\">\n              <i class=\"fas fa-trash\"></i>\n            </button>\n          </div>\n        </div>\n        "
    ++ (if task.description ≠ "" then
          "<p class=\"task-description\">" ++ escapeHtml task.description ++ "</p>"
        else "")
    ++ "\n      </div>\n    "

/-!
## Concrete sample states used by the witnesses -/

/-- A sample stored-style task with id `"1"`. -/
def sampleTask1 : Task :=
  { id := "1", title := "x", description := "", completed := false,
    createdAt := .str "" }

/-- A sample completed task with id `"7"`. -/
def sampleTask7 : Task :=
  { id := "7", title := "x", description := "", completed := true,
    createdAt := .str "" }

/-- A manager whose single task is rendered. -/
def sampleManagerOneRendered : TaskManager :=
  { tasks := [sampleTask1], currentFilter := "all", hideCompletedChecked := false,
    rendered := [sampleTask1], notification := none, store := emptyStorage }

/-- A manager whose single (completed) task is filtered out of the
`"active"` view, so nothing is rendered. -/
def sampleManagerNoneRendered : TaskManager :=
  { tasks := [sampleTask7], currentFilter := "active", hideCompletedChecked := false,
    rendered := [], notification := none, store := emptyStorage }

/-!
## Decimal rendering

`Date.now().toString()` is modelled as `Nat.repr`.  The id-uniqueness
invariant needs that distinct timestamps yield distinct id strings, i.e.
that `Nat.repr` is injective; core provides no such lemma, so it is proved
here via a structurally recursive rendering `decRender` equal to
`Nat.toDigitsCore`. -/

/-- Decimal rendering of a natural number, least significant digit last. -/
def decRender (n : Nat) : List Char :=
  if n < 10 then [Nat.digitChar n]
  else decRender (n / 10) ++ [Nat.digitChar (n % 10)]
decreasing_by exact Nat.div_lt_self (by omega) (by omega)

lemma decRender_of_lt {n : Nat} (h : n < 10) :
    decRender n = [Nat.digitChar n] := by
  rw [decRender, if_pos h]

lemma decRender_of_ge {n : Nat} (h : ¬ n < 10) :
    decRender n = decRender (n / 10) ++ [Nat.digitChar (n % 10)] := by
  rw [decRender, if_neg h]

lemma decRender_ne_nil (n : Nat) : decRender n ≠ [] := by
  by_cases h : n < 10
  · simp [decRender_of_lt h]
  · simp [decRender_of_ge h]

lemma toDigitsCore_append (b : Nat) (fuel : Nat) :
    ∀ (n : Nat) (ds : List Char),
      Nat.toDigitsCore b fuel n ds = Nat.toDigitsCore b fuel n [] ++ ds := by
  induction fuel with
  | zero => intro n ds; simp [Nat.toDigitsCore]
  | succ fuel ih =>
    intro n ds
    simp only [Nat.toDigitsCore]
    by_cases h : n / b = 0
    · simp [h]
    · simp only [h, if_false]
      rw [ih (n / b) [Nat.digitChar (n % b)], ih (n / b) (Nat.digitChar (n % b) :: ds),
        List.append_assoc]
      rfl

lemma toDigitsCore_eq_decRender (fuel : Nat) :
    ∀ n : Nat, n < fuel → Nat.toDigitsCore 10 fuel n [] = decRender n := by
  induction fuel with
  | zero => omega
  | succ fuel ih =>
    intro n hn
    simp only [Nat.toDigitsCore]
    by_cases h : n / 10 = 0
    · have hlt : n < 10 := (Nat.div_eq_zero_iff (by omega)).1 h
      simp [h, decRender_of_lt hlt, Nat.mod_eq_of_lt hlt]
    · have hge : ¬ n < 10 := by
        intro hlt
        exact h (Nat.div_eq_of_lt hlt)
      have hfuel : n / 10 < fuel := by
        have h1 : n / 10 < n := Nat.div_lt_self (by omega) (by omega)
        omega
      simp only [h, if_false]
      rw [toDigitsCore_append, ih (n / 10) hfuel, decRender_of_ge hge]

lemma digitChar_inj_lt_ten :
    ∀ m n : Fin 10, Nat.digitChar m.val = Nat.digitChar n.val → m = n := by
  decide

lemma decRender_inj : ∀ m n : Nat, decRender m = decRender n → m = n := by
  intro m
  induction m using Nat.strong_induction_on with
  | _ m ih =>
    intro n h
    by_cases hm : m < 10 <;> by_cases hn : n < 10
    · rw [decRender_of_lt hm, decRender_of_lt hn] at h
      have := digitChar_inj_lt_ten ⟨m, hm⟩ ⟨n, hn⟩ (by simpa using h)
      simpa using congrArg Fin.val this
    · rw [decRender_of_lt hm, decRender_of_ge hn] at h
      have hlen := congrArg List.length h
      simp only [List.length_append, List.length_cons, List.length_nil] at hlen
      exact absurd (List.length_eq_zero.1 (by omega)) (decRender_ne_nil (n / 10))
    · rw [decRender_of_ge hm, decRender_of_lt hn] at h
      have hlen := congrArg List.length h
      simp only [List.length_append, List.length_cons, List.length_nil] at hlen
      exact absurd (List.length_eq_zero.1 (by omega)) (decRender_ne_nil (m / 10))
    · rw [decRender_of_ge hm, decRender_of_ge hn] at h
      obtain ⟨hpre, hlast⟩ := List.append_inj' h (by simp)
      have hdiv : m / 10 = n / 10 :=
        ih (m / 10) (Nat.div_lt_self (by omega) (by omega)) (n / 10) hpre
      have hmod : m % 10 = n % 10 := by
        have := digitChar_inj_lt_ten ⟨m % 10, Nat.mod_lt _ (by omega)⟩
          ⟨n % 10, Nat.mod_lt _ (by omega)⟩ (by simpa using hlast)
        simpa using congrArg Fin.val this
      omega

/-- Distinct timestamps have distinct decimal renderings: the model of
`Number.prototype.toString` on `Date.now()` values is injective. -/
lemma Nat_repr_injective : Function.Injective Nat.repr := by
  intro m n h
  have hdata : Nat.toDigits 10 m = Nat.toDigits 10 n := by
    have := congrArg String.data h
    simpa [Nat.repr, List.asString] using this
  rw [Nat.toDigits, Nat.toDigits, toDigitsCore_eq_decRender (m + 1) m (by omega),
    toDigitsCore_eq_decRender (n + 1) n (by omega)] at hdata
  exact decRender_inj m n hdata

/-!
## Lemmas about HTML escaping -/

lemma unescapeList_amp (l : List Char) :
    unescapeList ('&' :: 'a' :: 'm' :: 'p' :: ';' :: l) = '&' :: unescapeList l := by
  rfl

lemma unescapeList_lt (l : List Char) :
    unescapeList ('&' :: 'l' :: 't' :: ';' :: l) = '<' :: unescapeList l := by
  rfl

lemma unescapeList_gt (l : List Char) :
    unescapeList ('&' :: 'g' :: 't' :: ';' :: l) = '>' :: unescapeList l := by
  rfl

lemma unescapeList_cons_of_ne (c : Char) (l : List Char) (h : c ≠ '&') :
    unescapeList (c :: l) = c :: unescapeList l := by
  rw [unescapeList.eq_def]
  split
  · next heq => exact absurd (List.head_eq_of_cons_eq heq.symm).symm h
  · next heq => exact absurd (List.head_eq_of_cons_eq heq.symm).symm h
  · next heq => exact absurd (List.head_eq_of_cons_eq heq.symm).symm h
  · next c2 l2 heq =>
    injection heq with h1 h2
    subst h1; subst h2
    rfl
  · next heq => exact absurd heq (by simp)

lemma unescapeList_escapeChar (c : Char) (l : List Char) :
    unescapeList (escapeChar c ++ l) = c :: unescapeList l := by
  by_cases h1 : c = '&'
  · subst h1; simpa [escapeChar] using unescapeList_amp l
  · by_cases h2 : c = '<'
    · subst h2; simpa [escapeChar] using unescapeList_lt l
    · by_cases h3 : c = '>'
      · subst h3; simpa [escapeChar] using unescapeList_gt l
      · simp only [escapeChar, h1, h2, h3, if_false, List.singleton_append]
        exact unescapeList_cons_of_ne c l h1

lemma unescapeList_escape (l : List Char) :
    unescapeList ((l.map escapeChar).flatten) = l := by
  induction l with
  | nil => rfl
  | cons c l ih =>
    rw [List.map_cons, List.flatten_cons, unescapeList_escapeChar, ih]

/-- Unescaping recovers the original text from its escaped form; in
particular `escapeHtml` is injective and escaping loses no information. -/
lemma unescapeHtml_escapeHtml (s : String) : unescapeHtml (escapeHtml s) = s := by
  cases s with
  | mk data =>
    show String.mk (unescapeList ((data.map escapeChar).flatten)) = String.mk data
    rw [unescapeList_escape]

lemma mem_escapeChar_not_tag {c d : Char} (h : c ∈ escapeChar d) :
    c ≠ '<' ∧ c ≠ '>' := by
  unfold escapeChar at h
  split_ifs at h with h1 h2 h3
  · simp only [List.mem_cons, List.not_mem_nil, or_false] at h
    rcases h with rfl | rfl | rfl | rfl | rfl <;> exact ⟨by decide, by decide⟩
  · simp only [List.mem_cons, List.not_mem_nil, or_false] at h
    rcases h with rfl | rfl | rfl | rfl <;> exact ⟨by decide, by decide⟩
  · simp only [List.mem_cons, List.not_mem_nil, or_false] at h
    rcases h with rfl | rfl | rfl | rfl <;> exact ⟨by decide, by decide⟩
  · simp only [List.mem_singleton] at h
    subst h
    exact ⟨h2, h3⟩

/-- The output of `escapeHtml` contains no tag delimiter. -/
lemma tagFree_escapeHtml (s : String) : TagFree (escapeHtml s) := by
  intro c hc
  have hc2 : c ∈ (s.data.map escapeChar).flatten := hc
  rw [List.mem_flatten] at hc2
  obtain ⟨l, hl, hcl⟩ := hc2
  rw [List.mem_map] at hl
  obtain ⟨d, _, rfl⟩ := hl
  exact mem_escapeChar_not_tag hcl

/-!
## Lemmas about the task-list operations -/

namespace TaskManager

lemma createTask_tasks (tm : TaskManager) (title description : String) (now : Nat) :
    (tm.createTask title description now).tasks =
      { id := Nat.repr now, title := jsTrim title, description := jsTrim description,
        completed := false, createdAt := .date ⟨now⟩ } :: tm.tasks := rfl

lemma toggle_tasks (tm : TaskManager) (taskId : String) :
    (tm.toggleTaskCompletion taskId).tasks =
      if tm.tasks.any (fun task => task.id = taskId) then
        toggleFirst taskId tm.tasks
      else tm.tasks := by
  unfold toggleTaskCompletion
  split
  · rfl
  · rfl

lemma toggleFirst_map_id (taskId : String) (l : List Task) :
    (toggleFirst taskId l).map Task.id = l.map Task.id := by
  induction l with
  | nil => rfl
  | cons t l ih =>
    unfold toggleFirst
    by_cases h : t.id = taskId
    · simp [h]
    · simp [h, ih]

lemma toggle_tasks_map_id (tm : TaskManager) (taskId : String) :
    (tm.toggleTaskCompletion taskId).tasks.map Task.id = tm.tasks.map Task.id := by
  rw [toggle_tasks]
  split
  · exact toggleFirst_map_id taskId tm.tasks
  · rfl

lemma toggleFirst_mem (taskId : String) (l : List Task) :
    ∀ t ∈ toggleFirst taskId l, ∃ t2 ∈ l, t2.id = t.id := by
  induction l with
  | nil => intro t ht; simp [toggleFirst] at ht
  | cons s l ih =>
    intro t ht
    unfold toggleFirst at ht
    by_cases h : s.id = taskId
    · rw [if_pos h] at ht
      rcases List.mem_cons.1 ht with rfl | ht2
      · exact ⟨s, List.mem_cons_self s l, rfl⟩
      · exact ⟨t, List.mem_cons_of_mem s ht2, rfl⟩
    · rw [if_neg h] at ht
      rcases List.mem_cons.1 ht with rfl | ht2
      · exact ⟨t, List.mem_cons_self t l, rfl⟩
      · obtain ⟨t2, ht2l, hid⟩ := ih t ht2
        exact ⟨t2, List.mem_cons_of_mem s ht2l, hid⟩

lemma deleteTask_tasks_sublist (tm : TaskManager) (taskId : String) :
    (tm.deleteTask taskId).tasks.Sublist tm.tasks := by
  unfold deleteTask
  split
  · exact List.filter_sublist tm.tasks
  · exact List.Sublist.refl tm.tasks

lemma createTimes_create (title description : String) (now : Nat) (ops : List Op) :
    createTimes (.create title description now :: ops) = now :: createTimes ops := rfl

lemma createTimes_toggle (id : String) (ops : List Op) :
    createTimes (.toggle id :: ops) = createTimes ops := rfl

lemma createTimes_delete (id : String) (ops : List Op) :
    createTimes (.delete id :: ops) = createTimes ops := rfl

/-- Invariant carried through any operation sequence: every id in the list
is the decimal rendering of a previously observed creation instant, and the
ids are pairwise distinct provided no previously observed instant recurs. -/
lemma applyOps_id_invariant (ops : List Op) :
    ∀ (tm : TaskManager) (past : List Nat),
      (∀ t ∈ tm.tasks, ∃ n ∈ past, t.id = Nat.repr n) →
      (tm.tasks.map Task.id).Nodup →
      (past ++ createTimes ops).Nodup →
      ((tm.applyOps ops).tasks.map Task.id).Nodup ∧
        ∀ t ∈ (tm.applyOps ops).tasks, ∃ n ∈ past ++ createTimes ops, t.id = Nat.repr n := by
  induction ops with
  | nil =>
    intro tm past hprov hnodup _
    refine ⟨hnodup, fun t ht => ?_⟩
    obtain ⟨n, hn, hid⟩ := hprov t ht
    exact ⟨n, by simp [hn], hid⟩
  | cons op ops ih =>
    intro tm past hprov hnodup htimes
    match op with
    | .create title description now =>
      rw [createTimes_create] at htimes
      have hnow_notin : now ∉ past := by
        rw [List.nodup_append] at htimes
        exact fun hmem => htimes.2.2 hmem (List.mem_cons_self now _)
      have happ : tm.applyOps (Op.create title description now :: ops) =
          (tm.createTask title description now).applyOps ops := rfl
      rw [happ, createTimes_create, ← List.singleton_append, ← List.append_assoc]
      apply ih (tm.createTask title description now) (past ++ [now])
      · intro t ht
        rw [createTask_tasks] at ht
        rcases List.mem_cons.1 ht with rfl | ht2
        · exact ⟨now, by simp, rfl⟩
        · obtain ⟨n, hn, hid⟩ := hprov t ht2
          exact ⟨n, by simp [hn], hid⟩
      · rw [createTask_tasks, List.map_cons]
        refine List.Nodup.cons ?_ hnodup
        intro hmem
        obtain ⟨t, ht, hid⟩ := List.mem_map.1 hmem
        obtain ⟨n, hn, hid2⟩ := hprov t ht
        have : n = now := Nat_repr_injective (hid2 ▸ hid)
        exact hnow_notin (this ▸ hn)
      · rw [List.append_assoc, List.singleton_append]
        exact htimes
    | .toggle id =>
      have happ : tm.applyOps (Op.toggle id :: ops) =
          (tm.toggleTaskCompletion id).applyOps ops := rfl
      rw [happ, createTimes_toggle] at *
      apply ih (tm.toggleTaskCompletion id) past
      · intro t ht
        have hmem := ht
        rw [toggle_tasks] at hmem
        by_cases hc : tm.tasks.any (fun task => task.id = id)
        · rw [if_pos hc] at hmem
          obtain ⟨t2, ht2, hid⟩ := toggleFirst_mem id tm.tasks t hmem
          obtain ⟨n, hn, hid2⟩ := hprov t2 ht2
          exact ⟨n, hn, by rw [← hid, hid2]⟩
        · rw [if_neg hc] at hmem
          exact hprov t hmem
      · rw [toggle_tasks_map_id]
        exact hnodup
      · exact htimes
    | .delete id =>
      have happ : tm.applyOps (Op.delete id :: ops) =
          (tm.deleteTask id).applyOps ops := rfl
      rw [happ, createTimes_delete] at *
      apply ih (tm.deleteTask id) past
      · intro t ht
        exact hprov t ((deleteTask_tasks_sublist tm id).subset ht)
      · exact ((deleteTask_tasks_sublist tm id).map Task.id).nodup hnodup
      · exact htimes

end TaskManager

/-!
## The claims -/

/-- C1, counterexample: with a malformed string stored under the tasks key,
`getTasks()` does not return the empty list — the `JSON.parse` failure
propagates to the caller as an uncaught exception (`getTasks` has no
`try`/`catch`), refuting the claim that a parse failure is recovered
locally. -/
theorem getTasks_malformed_raises :
    TaskStorage.getTasks
        { taskflow_tasks := some .malformed, taskflow_preferences := none }
        = .error .parseFailed
      ∧ TaskStorage.getTasks
        { taskflow_tasks := some .malformed, taskflow_preferences := none }
        ≠ .ok [] :=
  ⟨rfl, fun h => nomatch h⟩

/-- C1, amended: `getTasks()` returns the parsed list when the stored value
under the tasks key parses, and the empty list when nothing is stored; but a
parse failure is NOT recovered locally — it surfaces to the caller as an
uncaught exception. -/
theorem getTasks_amended (ls : LocalStorage) :
    TaskStorage.getTasks ls =
      match ls.taskflow_tasks with
      | none => .ok []
      | some (.wellFormed ts) => .ok (ts.map deserializeTask)
      | some .malformed => .error .parseFailed := by
  rcases ls with ⟨t, p⟩
  rcases t with _ | sv
  · rfl
  · rcases sv with v | _ <;> rfl

/-- C2, counterexample: a task fresh from `createTask` carries a `Date`
object in `createdAt`; `JSON.stringify` turns it into the ISO string and
`JSON.parse` yields that plain string back, so saving and reloading this
one-element list does not return an equal list. -/
theorem roundTrip_counterexample :
    TaskStorage.getTasks
        (TaskStorage.saveTasks emptyStorage
          [{ id := "1", title := "a", description := "", completed := false,
             createdAt := .date ⟨0⟩ }]).2
      ≠ .ok [{ id := "1", title := "a", description := "", completed := false,
               createdAt := .date ⟨0⟩ }] := by
  intro h
  have h2 : ([{ id := "1", title := "a", description := "",
                completed := false, createdAt := CreatedAt.str "0" }] : List Task)
      = [{ id := "1", title := "a", description := "",
           completed := false, createdAt := CreatedAt.date ⟨0⟩ }] := by
    injection h
  simp at h2

/-- C2, amended: saving a task list and reloading it on the same store
yields a list of the same length in which every task keeps its `id`,
`title`, `description` and `completed` fields; `createdAt` is preserved up
to JSON serialization — a `Date` value comes back as its ISO string, while
a string value round-trips exactly. -/
theorem roundTrip_amended (ls : LocalStorage) (tasks : List Task) :
    TaskStorage.getTasks (TaskStorage.saveTasks ls tasks).2
      = .ok (tasks.map fun t =>
          { t with createdAt := .str (serializeCreatedAt t.createdAt) }) := by
  have h : TaskStorage.getTasks (TaskStorage.saveTasks ls tasks).2
      = .ok ((tasks.map serializeTask).map deserializeTask) := rfl
  have hmap : (tasks.map serializeTask).map deserializeTask
      = tasks.map (fun t =>
          { t with createdAt := CreatedAt.str (serializeCreatedAt t.createdAt) }) :=
    (List.map_map deserializeTask serializeTask tasks).trans
      (List.map_congr_left fun t _ => by cases t; rfl)
  exact h.trans (congrArg Except.ok hmap)

/-- C3, counterexample: two `createTask` calls within the same millisecond
(`Date.now()` returning 5 twice) produce two tasks with the same id `"5"`,
so id uniqueness does not hold for every reachable list. -/
theorem ids_not_unique_counterexample :
    ¬ ((TaskManager.fresh.applyOps
        [.create "a" "" 5, .create "b" "" 5]).tasks.map Task.id).Nodup := by
  decide

/-- C3, amended: along every sequence of `createTask`,
`toggleTaskCompletion` and `deleteTask` operations starting from the
freshly loaded manager, the ids in the task list are pairwise distinct,
provided no two creations observe the same `Date.now()` value. -/
theorem ids_unique_of_distinct_times (ops : List TaskManager.Op)
    (h : (TaskManager.createTimes ops).Nodup) :
    ((TaskManager.fresh.applyOps ops).tasks.map Task.id).Nodup :=
  (TaskManager.applyOps_id_invariant ops TaskManager.fresh []
    (fun t ht => absurd ht (List.not_mem_nil t))
    List.nodup_nil
    (by simpa using h)).1

/-- Witness for the amended C3 at a concrete two-creation sequence with
distinct timestamps. -/
theorem ids_unique_of_distinct_times_witness :
    (TaskManager.createTimes [.create "a" "" 1, .create "b" "" 2]).Nodup
    ∧ ((TaskManager.fresh.applyOps
        [.create "a" "" 1, .create "b" "" 2]).tasks.map Task.id).Nodup :=
  ⟨by decide, ids_unique_of_distinct_times [.create "a" "" 1, .create "b" "" 2] (by decide)⟩

/-- C4: `filterTasks` is a pure read — it only computes a value from the
manager state and touches neither the task list nor any other field — and
returns exactly the claimed selection for each filter, each result being a
sublist of the task list (same order, no duplication). -/
theorem filterTasks_spec (tm : TaskManager) :
    ({ tm with currentFilter := "active" } : TaskManager).filterTasks
        = tm.tasks.filter (fun task => !task.completed)
    ∧ ({ tm with currentFilter := "completed" } : TaskManager).filterTasks
        = tm.tasks.filter (fun task => task.completed)
    ∧ ({ tm with currentFilter := "all", hideCompletedChecked := true } : TaskManager).filterTasks
        = tm.tasks.filter (fun task => !task.completed)
    ∧ ({ tm with currentFilter := "all", hideCompletedChecked := false } : TaskManager).filterTasks
        = tm.tasks
    ∧ tm.filterTasks.Sublist tm.tasks := by
  refine ⟨rfl, rfl, rfl, rfl, ?_⟩
  unfold TaskManager.filterTasks
  split
  · exact List.filter_sublist tm.tasks
  · exact List.filter_sublist tm.tasks
  · split
    · exact List.filter_sublist tm.tasks
    · exact List.Sublist.refl tm.tasks

/-- C5: for a title that is non-empty after trimming, `createTask` prepends
exactly one new task — trimmed title and description, `completed = false`,
id freshly derived from the creation instant — and leaves the rest of the
list unchanged. -/
theorem createTask_spec (tm : TaskManager) (title description : String) (now : Nat)
    (h : jsTrim title ≠ "") :
    (tm.createTask title description now).tasks =
      { id := Nat.repr now, title := jsTrim title, description := jsTrim description,
        completed := false, createdAt := .date ⟨now⟩ } :: tm.tasks := rfl

/-- Witness for C5 at the concrete example of the spec
`createTask("  Buy milk  ", "")`. -/
theorem createTask_spec_witness :
    (jsTrim "  Buy milk  " ≠ "")
    ∧ (TaskManager.fresh.createTask "  Buy milk  " "" 0).tasks =
        [{ id := "0", title := "Buy milk", description := "", completed := false,
           createdAt := .date ⟨0⟩ }] := by
  refine ⟨by decide, ?_⟩
  rw [createTask_spec TaskManager.fresh "  Buy milk  " "" 0 (by decide)]
  decide

/-- C6: on a store holding a well-formed preferences record,
`updatePreference(key, value)` followed by `getPreferences()` yields the
record with the named key set to the new value and the other two fields
unchanged, for each of the three keys the program writes. -/
theorem updatePreference_spec (ls : LocalStorage) (p : Preferences)
    (h : ls.taskflow_preferences = some (.wellFormed p)) :
    (∀ b, TaskStorage.getPreferences (TaskStorage.updatePreference ls (.darkMode b)).2
        = { p with darkMode := b })
    ∧ (∀ c, TaskStorage.getPreferences (TaskStorage.updatePreference ls (.accentColor c)).2
        = { p with accentColor := c })
    ∧ (∀ b, TaskStorage.getPreferences (TaskStorage.updatePreference ls (.hideCompleted b)).2
        = { p with hideCompleted := b }) := by
  refine ⟨fun b => ?_, fun c => ?_, fun b => ?_⟩ <;>
    simp [TaskStorage.updatePreference, TaskStorage.getPreferences,
      TaskStorage.savePreferences, TaskStorage.setPref, parseJSON, h]

/-- Witness for C6 at the concrete example of the spec:
`updatePreference("darkMode", false)` then `getPreferences()` gives
`darkMode = false` with `accentColor` and `hideCompleted` unchanged. -/
theorem updatePreference_spec_witness :
    ({ taskflow_tasks := none,
       taskflow_preferences := some (.wellFormed TaskStorage.defaultPreferences) }
        : LocalStorage).taskflow_preferences
      = some (.wellFormed TaskStorage.defaultPreferences)
    ∧ TaskStorage.getPreferences
        (TaskStorage.updatePreference
          { taskflow_tasks := none,
            taskflow_preferences := some (.wellFormed TaskStorage.defaultPreferences) }
          (.darkMode false)).2
      = { darkMode := false, accentColor := "lilac", hideCompleted := false } := by
  refine ⟨rfl, ?_⟩
  rw [(updatePreference_spec _ TaskStorage.defaultPreferences rfl).1 false]
  rfl

/-- C7: `getPreferences()` returns the hardcoded defaults
`{darkMode: true, accentColor: "lilac", hideCompleted: false}` both when
the preferences key is absent and when the stored value fails to parse; in
neither case does an error reach the caller. -/
theorem getPreferences_defaults (ls : LocalStorage)
    (h : ls.taskflow_preferences = none ∨ ls.taskflow_preferences = some .malformed) :
    TaskStorage.getPreferences ls =
      { darkMode := true, accentColor := "lilac", hideCompleted := false } := by
  rcases h with h | h <;>
    simp [TaskStorage.getPreferences, h, parseJSON, TaskStorage.defaultPreferences]

/-- Witness for C7 on the empty store. -/
theorem getPreferences_defaults_witness :
    (emptyStorage.taskflow_preferences = none
      ∨ emptyStorage.taskflow_preferences = some .malformed)
    ∧ TaskStorage.getPreferences emptyStorage =
      { darkMode := true, accentColor := "lilac", hideCompleted := false } :=
  ⟨Or.inl rfl, getPreferences_defaults emptyStorage (Or.inl rfl)⟩

/-- C8: the text of a task inserted into its markup goes through `escapeHtml`
(see `createTaskElementHTML`), whose output contains no tag delimiter — so
it can never be parsed as markup — and decodes back to exactly the original
text, so it renders as the literal title/description; the element markup
contains the escaped title as a segment, and `"<script>"` in particular
escapes to `"&lt;script&gt;"`. -/
theorem escapeHtml_spec (task : Task) :
    TagFree (escapeHtml task.title)
    ∧ TagFree (escapeHtml task.description)
    ∧ unescapeHtml (escapeHtml task.title) = task.title
    ∧ unescapeHtml (escapeHtml task.description) = task.description
    ∧ (∃ pre post : String,
        createTaskElementHTML task = pre ++ escapeHtml task.title ++ post)
    ∧ escapeHtml "<script>" = "&lt;script&gt;" := by
  refine ⟨tagFree_escapeHtml _, tagFree_escapeHtml _, unescapeHtml_escapeHtml _,
    unescapeHtml_escapeHtml _, ?_, by decide⟩
  refine ⟨"\n      <label class=\"task-checkbox\">\n        <input type=\"checkbox\" "
      ++ (if task.completed then "checked" else "")
      ++ ">\n        <span class=\"custom-checkbox\">\n          <i class=\"fas fa-check\"></i>\n        </span>\n      </label>\n      <div class=\"task-content\">\n        <div class=\"task-header\">\n          <h3 class=\"task-title\">",
    "</h3>\n          <div class=\"task-actions\">\n            <button class=\"delete-btn\" aria-label=\"Delete task\">\n              <i class=\"fas fa-trash\"></i>\n            </button>\n          </div>\n        </div>\n        "
      ++ (if task.description ≠ "" then
            "<p class=\"task-description\">" ++ escapeHtml task.description ++ "</p>"
          else "")
      ++ "\n      </div>\n    ", ?_⟩
  simp [createTaskElementHTML, String.append_assoc]

/-- C9: deleting an id that occurs nowhere in the task list leaves the task
list unchanged (and, `deleteTask` being a total function of the state, no
exception is possible). -/
theorem deleteTask_missing_id (tm : TaskManager) (taskId : String)
    (h : taskId ∉ tm.tasks.map Task.id) :
    (tm.deleteTask taskId).tasks = tm.tasks := by
  unfold TaskManager.deleteTask
  split
  · show tm.tasks.filter (fun task => task.id ≠ taskId) = tm.tasks
    rw [List.filter_eq_self]
    intro t ht
    rw [decide_eq_true_eq]
    intro heq
    exact h (heq ▸ List.mem_map_of_mem Task.id ht)
  · rfl

/-- Witness for C9: deleting the absent id `"zzz"` from a one-task list. -/
theorem deleteTask_missing_id_witness :
    ("zzz" ∉ [sampleTask1].map Task.id)
    ∧ (sampleManagerOneRendered.deleteTask "zzz").tasks = [sampleTask1] :=
  ⟨by decide, deleteTask_missing_id sampleManagerOneRendered "zzz" (by decide)⟩

/-- C10: when no rendered `.task-item` element matches the id —
e.g. because the task is filtered out of the current view —
`deleteTask` performs no mutation at all: the entire state (in-memory
list, store, rendered view, notification banner) is exactly unchanged. -/
theorem deleteTask_unrendered_noop (tm : TaskManager) (taskId : String)
    (h : ∀ t ∈ tm.rendered, t.id ≠ taskId) :
    tm.deleteTask taskId = tm := by
  have hc : ¬ (tm.rendered.any (fun task => task.id = taskId) = true) := by
    rw [List.any_eq_true]
    rintro ⟨t, ht, heq⟩
    exact h t ht (by simpa using heq)
  unfold TaskManager.deleteTask
  rw [if_neg hc]

/-- Witness for C10: the task with id `"7"` is in the in-memory list but —
being completed while the `"active"` filter is current — has no rendered
element; `deleteTask` leaves the whole state unchanged. -/
theorem deleteTask_unrendered_noop_witness :
    (∀ t ∈ sampleManagerNoneRendered.rendered, t.id ≠ "7")
    ∧ sampleManagerNoneRendered.deleteTask "7" = sampleManagerNoneRendered :=
  ⟨by simp [sampleManagerNoneRendered], deleteTask_unrendered_noop sampleManagerNoneRendered "7"
    (by simp [sampleManagerNoneRendered])⟩

end TaskFlow
